import Mathlib

/-!
Shallow embedding of `src/src/DistributionNonparametric.cpp`.

The C++ class stores a waiting-time distribution (a `std::vector<double>`),
normalizes it at construction so that it sums to 1, and derives a parallel
sequence of transition (hazard) probabilities.  We embed the `double` values
as exact rationals (`ℚ`), so every arithmetic identity below is exact; note
that in `ℚ` division by zero yields `0`.  Division-by-zero events performed
by the source loops are tracked by separate boolean predicates that mirror
exactly which divisions the code executes.
-/

namespace Denim

/-- The accumulation loop of the constructor (lines 11-14):
`double sumWaitingTime {0}; for (auto& wt: waitingTime) sumWaitingTime += wt;`. -/
def sumWaitingTime (w : List ℚ) : ℚ :=
  w.foldl (· + ·) 0

/-- The normalization step of the constructor (lines 15-19):
if the sum is not exactly 1, divide every element by the sum. -/
def normalizeWaitingTime (w : List ℚ) : List ℚ :=
  if sumWaitingTime w ≠ 1 then w.map (· / sumWaitingTime w) else w

/-- Modelled from the spec: the suffix "survival mass"
`S(k) = sum of waiting-time entries from index k to N-1`, used by
`calcTransitionProbHelper`, whose body is declared but not present in `src/`. -/
def suffixSum (w : List ℚ) (k : ℕ) : ℚ :=
  sumWaitingTime (w.drop k)

/-- Modelled from the spec: `calcTransitionProbHelper(waitingTime, k)` — whose
body is not present in `src/` — computes `waitingTime[k] / S(k)`, the discrete
hazard rate at day `k`. -/
def calcTransitionProbHelper (w : List ℚ) (k : ℕ) : ℚ :=
  w.getD k 0 / suffixSum w k

/-- The loop of `calcTransitionProb` (lines 26-28): for each `k` below the
length of `waitingTime`, push `calcTransitionProbHelper(waitingTime, k)`. -/
def calcTransitionProb (w : List ℚ) : List ℚ :=
  (List.range w.length).map (fun k => calcTransitionProbHelper w k)

/-- The state of a constructed `DistributionNonparametric` object. -/
structure DistributionNonparametric where
  waitingTime : List ℚ
  transitionProb : List ℚ
  maxDay : ℕ
  distName : String

/-- The constructor `DistributionNonparametric::DistributionNonparametric`
(lines 9-23): normalize the input, store it, derive the transition
probabilities, set `maxDay` to their number (line 31), set the name. -/
def construct (waitingTime : List ℚ) : DistributionNonparametric :=
  let w := normalizeWaitingTime waitingTime
  { waitingTime := w
    transitionProb := calcTransitionProb w
    maxDay := (calcTransitionProb w).length
    distName := "nonparametric" }

/-- `DistributionNonparametric::getTransitionProb` (lines 34-40): return 1
for an index at or beyond the stored sequence, the stored entry otherwise. -/
def getTransitionProb (d : DistributionNonparametric) (index : ℕ) : ℚ :=
  if index ≥ d.transitionProb.length then 1 else d.transitionProb.getD index 0

/-- `DistributionNonparametric::getWaitingTime` (lines 43-45). -/
def getWaitingTime (d : DistributionNonparametric) : List ℚ :=
  d.waitingTime

/-- The normalization loop (lines 16-18) divides each element by
`sumWaitingTime`; a division by zero is performed iff the branch is taken
(sum ≠ 1), the loop body runs at least once (non-empty input), and the
divisor is zero. -/
def normalizeDividesByZero (w : List ℚ) : Bool :=
  decide (sumWaitingTime w ≠ 1) && !w.isEmpty && decide (sumWaitingTime w = 0)

/-- Modelled from the spec: `calcTransitionProbHelper` divides by the
survival mass `S(k)`; across the loop of `calcTransitionProb` a division by
zero is performed iff `S(k) = 0` for some `k` below the length. -/
def calcTransitionProbDividesByZero (w : List ℚ) : Bool :=
  (List.range w.length).any (fun k => decide (suffixSum w k = 0))

/-! ### Helper lemmas -/

lemma sumWaitingTime_eq_sum (w : List ℚ) : sumWaitingTime w = w.sum := by
  rw [sumWaitingTime, List.sum_eq_foldl]

lemma sum_map_div (w : List ℚ) (s : ℚ) : (w.map (· / s)).sum = w.sum / s := by
  induction w with
  | nil => simp
  | cons a t ih => simp [ih, add_div]

lemma length_normalizeWaitingTime (w : List ℚ) :
    (normalizeWaitingTime w).length = w.length := by
  rw [normalizeWaitingTime]
  split <;> simp

lemma length_calcTransitionProb (w : List ℚ) :
    (calcTransitionProb w).length = w.length := by
  simp [calcTransitionProb]

lemma calcTransitionProb_getD (w : List ℚ) {k : ℕ} (hk : k < w.length) :
    (calcTransitionProb w).getD k 0 = calcTransitionProbHelper w k := by
  rw [calcTransitionProb, List.getD_eq_getElem?_getD, List.getElem?_map,
    List.getElem?_range hk]
  rfl

lemma sum_normalizeWaitingTime (w : List ℚ) (h : w.sum ≠ 0) :
    (normalizeWaitingTime w).sum = 1 := by
  rw [normalizeWaitingTime]
  split
  · rw [sum_map_div, sumWaitingTime_eq_sum, div_self h]
  · rename_i h1
    push_neg at h1
    rw [← sumWaitingTime_eq_sum, h1]

/-! ### Concrete evaluations used by the scenario claims -/

lemma sumWaitingTime_A : sumWaitingTime [1, 1, 2] = 4 := by
  norm_num [sumWaitingTime]

lemma construct_A : construct [1, 1, 2] =
    ⟨[1/4, 1/4, 1/2], [1/4, 1/3, 1], 3, "nonparametric"⟩ := by
  unfold construct calcTransitionProb calcTransitionProbHelper suffixSum
    normalizeWaitingTime sumWaitingTime
  norm_num [List.range_succ]

lemma sumWaitingTime_B : sumWaitingTime [(1 : ℚ)/2, 1/2] = 1 := by
  norm_num [sumWaitingTime]

lemma construct_B : construct [(1 : ℚ)/2, 1/2] =
    ⟨[1/2, 1/2], [1/2, 1], 2, "nonparametric"⟩ := by
  unfold construct calcTransitionProb calcTransitionProbHelper suffixSum
    normalizeWaitingTime sumWaitingTime
  norm_num [List.range_succ]

lemma construct_C : construct [1, 0, 0, 1] =
    ⟨[1/2, 0, 0, 1/2], [1/2, 0, 0, 1], 4, "nonparametric"⟩ := by
  unfold construct calcTransitionProb calcTransitionProbHelper suffixSum
    normalizeWaitingTime sumWaitingTime
  norm_num [List.range_succ]

lemma construct_nil : construct [] = ⟨[], [], 0, "nonparametric"⟩ := rfl

lemma construct_neg : construct [1, -1, 1] =
    ⟨[1, -1, 1], [1, 0, 1], 3, "nonparametric"⟩ := by
  unfold construct calcTransitionProb calcTransitionProbHelper suffixSum
    normalizeWaitingTime sumWaitingTime
  norm_num [List.range_succ]

/-! ### Claims -/

/-- C4: for every input, the transition-probability sequence has the same
length as the stored waiting-time sequence, and `maxDay` equals that common
length. -/
theorem length_invariant (w : List ℚ) :
    (construct w).transitionProb.length = (construct w).waitingTime.length ∧
    (construct w).maxDay = (construct w).transitionProb.length := by
  exact ⟨length_calcTransitionProb _, rfl⟩

/-- C2: for every constructed distribution, `getTransitionProb` returns
exactly 1 at any index at or beyond `maxDay` (the length of the stored
transition-probability sequence), and the stored value at any index strictly
below `maxDay`. -/
theorem getTransitionProb_contract (w : List ℚ) (index : ℕ) :
    ((construct w).maxDay ≤ index → getTransitionProb (construct w) index = 1) ∧
    (index < (construct w).maxDay →
      getTransitionProb (construct w) index =
        (construct w).transitionProb.getD index 0) := by
  have hlen : (construct w).maxDay = (construct w).transitionProb.length := rfl
  constructor
  · intro h
    rw [getTransitionProb, if_pos (hlen ▸ h)]
  · intro h
    rw [getTransitionProb, if_neg (not_le.2 (hlen ▸ h))]

/-- Witness for C2 at the concrete input `[1, 1, 2]`, indices 100 and 1. -/
theorem getTransitionProb_contract_witness :
    getTransitionProb (construct [1, 1, 2]) 100 = 1 ∧
    getTransitionProb (construct [1, 1, 2]) 1 =
      (construct [1, 1, 2]).transitionProb.getD 1 0 :=
  ⟨(getTransitionProb_contract [1, 1, 2] 100).1 (by rw [construct_A]; decide),
   (getTransitionProb_contract [1, 1, 2] 1).2 (by rw [construct_A]; decide)⟩

/-- C3: for every non-empty input with positive sum, the stored waiting-time
sequence sums to exactly 1. -/
theorem waitingTime_sums_to_one (w : List ℚ) (hne : w ≠ [])
    (hpos : 0 < sumWaitingTime w) :
    sumWaitingTime (getWaitingTime (construct w)) = 1 := by
  have hs : w.sum ≠ 0 := by
    rw [← sumWaitingTime_eq_sum]
    exact ne_of_gt hpos
  rw [sumWaitingTime_eq_sum]
  exact sum_normalizeWaitingTime w hs

/-- Witness for C3 at the concrete input `[1, 1, 2]` (sum 4). -/
theorem waitingTime_sums_to_one_witness :
    sumWaitingTime (getWaitingTime (construct [1, 1, 2])) = 1 :=
  waitingTime_sums_to_one [1, 1, 2] (by decide)
    (by rw [sumWaitingTime_A]; norm_num)

/-- C5: Scenario A — input `[1, 1, 2]` yields waiting times
`[1/4, 1/4, 1/2]`, transition probabilities `[1/4, (1/4)/(3/4), 1]`,
`maxDay = 3`, and `getTransitionProb` returns 1 at indices 3 and 100. -/
theorem scenario_A_correct :
    (construct [1, 1, 2]).waitingTime = [1/4, 1/4, 1/2] ∧
    (construct [1, 1, 2]).transitionProb = [1/4, (1/4) / (3/4), 1] ∧
    (construct [1, 1, 2]).maxDay = 3 ∧
    getTransitionProb (construct [1, 1, 2]) 3 = 1 ∧
    getTransitionProb (construct [1, 1, 2]) 100 = 1 := by
  simp only [construct_A, getTransitionProb]
  norm_num

/-- C6: normalization is idempotent — any input whose element sum is exactly
1 is stored unchanged; in particular `[1/2, 1/2]` is stored as itself with
transition probabilities `[1/2, 1]`. -/
theorem normalization_idempotent :
    (∀ w : List ℚ, sumWaitingTime w = 1 → (construct w).waitingTime = w) ∧
    (construct [(1 : ℚ)/2, 1/2]).waitingTime = [1/2, 1/2] ∧
    (construct [(1 : ℚ)/2, 1/2]).transitionProb = [1/2, 1] := by
  refine ⟨fun w hw => ?_, ?_, ?_⟩
  · show normalizeWaitingTime w = w
    rw [normalizeWaitingTime, if_neg]
    simp [hw]
  · rw [construct_B]
  · rw [construct_B]

/-- Witness for C6: the already-normalized input `[1/2, 1/2]` is stored
unchanged. -/
theorem normalization_idempotent_witness :
    (construct [(1 : ℚ)/2, 1/2]).waitingTime = [(1 : ℚ)/2, 1/2] :=
  normalization_idempotent.1 [(1 : ℚ)/2, 1/2] sumWaitingTime_B

/-- C8: Scenario C — input `[1, 0, 0, 1]` yields waiting times
`[1/2, 0, 0, 1/2]`; the suffix survival masses S(1) and S(2) are the
positive value 1/2, and the transition probabilities at indices 1, 2, 3 are
0, 0, 1. -/
theorem scenario_C_correct :
    (construct [1, 0, 0, 1]).waitingTime = [1/2, 0, 0, 1/2] ∧
    suffixSum (construct [1, 0, 0, 1]).waitingTime 1 = 1/2 ∧
    suffixSum (construct [1, 0, 0, 1]).waitingTime 2 = 1/2 ∧
    (construct [1, 0, 0, 1]).transitionProb.getD 1 0 = 0 ∧
    (construct [1, 0, 0, 1]).transitionProb.getD 2 0 = 0 ∧
    (construct [1, 0, 0, 1]).transitionProb.getD 3 0 = 1 := by
  simp only [construct_C, suffixSum, sumWaitingTime]
  norm_num

/-- C9: constructing with the empty sequence performs no division at all:
both stored sequences are empty, `maxDay = 0`, `getWaitingTime` returns the
empty sequence, `getTransitionProb` returns 1 everywhere, and neither the
normalization loop nor the transition-probability loop performs a division
by zero. -/
theorem construct_empty_safe (index : ℕ) :
    (construct []).waitingTime = [] ∧
    (construct []).transitionProb = [] ∧
    (construct []).maxDay = 0 ∧
    getWaitingTime (construct []) = [] ∧
    getTransitionProb (construct []) index = 1 ∧
    normalizeDividesByZero [] = false ∧
    calcTransitionProbDividesByZero (construct []).waitingTime = false := by
  refine ⟨rfl, rfl, rfl, rfl, ?_, rfl, rfl⟩
  rw [getTransitionProb, if_pos]
  show ([] : List ℚ).length ≤ index
  simp

/-- C1 counterexample: for the input `[1, -1, 1]` (which sums to 1, so it is
stored unchanged), at index 1 the survival mass S(1) is 0 while
waitingTime[1] = -1, so transitionProb[1] * S(1) = 0 ≠ -1: the claimed
identity fails for an input with a negative weight. -/
theorem hazard_identity_counterexample :
    ¬ ((construct [1, -1, 1]).transitionProb.getD 1 0 *
        suffixSum (construct [1, -1, 1]).waitingTime 1 =
      (construct [1, -1, 1]).waitingTime.getD 1 0) := by
  rw [construct_neg]
  norm_num [suffixSum, sumWaitingTime]

/-- C1 (amended with the proviso S(k) ≠ 0): for every input and every index
k below the length of the transition-probability sequence whose survival
mass S(k) is nonzero, transitionProb[k] = waitingTime[k] / S(k) and
transitionProb[k] * S(k) = waitingTime[k], where S(k) is the suffix sum of
the stored (normalized) waiting-time sequence.  At S(k) = 0 the ratio is
undefined (the spec's open question), so no identity is claimed there. -/
theorem hazard_identity (w : List ℚ) (k : ℕ)
    (hk : k < (construct w).transitionProb.length)
    (hS : suffixSum (construct w).waitingTime k ≠ 0) :
    (construct w).transitionProb.getD k 0 =
      (construct w).waitingTime.getD k 0 /
        suffixSum (construct w).waitingTime k ∧
    (construct w).transitionProb.getD k 0 *
        suffixSum (construct w).waitingTime k =
      (construct w).waitingTime.getD k 0 := by
  have hT : (construct w).transitionProb =
      calcTransitionProb (normalizeWaitingTime w) := rfl
  have hW : (construct w).waitingTime = normalizeWaitingTime w := rfl
  rw [hW] at hS
  rw [hT] at hk
  rw [length_calcTransitionProb] at hk
  rw [hT, hW]
  constructor
  · rw [calcTransitionProb_getD _ hk]
    rfl
  · rw [calcTransitionProb_getD _ hk, calcTransitionProbHelper]
    exact div_mul_cancel₀ _ hS

/-- Witness for the amended C1 at input `[1, 1, 2]`, index 1, where
S(1) = 3/4 is nonzero. -/
theorem hazard_identity_witness :
    1 < (construct [1, 1, 2]).transitionProb.length ∧
    suffixSum (construct [1, 1, 2]).waitingTime 1 ≠ 0 ∧
    ((construct [1, 1, 2]).transitionProb.getD 1 0 =
      (construct [1, 1, 2]).waitingTime.getD 1 0 /
        suffixSum (construct [1, 1, 2]).waitingTime 1 ∧
     (construct [1, 1, 2]).transitionProb.getD 1 0 *
        suffixSum (construct [1, 1, 2]).waitingTime 1 =
      (construct [1, 1, 2]).waitingTime.getD 1 0) :=
  ⟨by rw [construct_A]; decide,
   by rw [construct_A]; norm_num [suffixSum, sumWaitingTime],
   hazard_identity [1, 1, 2] 1 (by rw [construct_A]; decide)
     (by rw [construct_A]; norm_num [suffixSum, sumWaitingTime])⟩

/-- C7 counterexample: constructing with the empty sequence performs no
division by zero in either phase — the normalization loop and the
transition-probability loop both run zero times. -/
theorem degenerate_division_counterexample :
    ¬ (normalizeDividesByZero [] = true ∨
       calcTransitionProbDividesByZero
         (construct ([] : List ℚ)).waitingTime = true) := by
  decide

/-- C7 (amended only by excluding the empty input): for every non-empty
sequence of all-zero weights, construction performs a division by zero
during normalization or during the transition-probability computation (here
the normalization loop divides every element by the zero sum), this is not
guarded, and construction still completes, storing a sequence of the
input's length rather than raising an error. -/
theorem allzero_division_by_zero (w : List ℚ) (hne : w ≠ [])
    (hz : ∀ x ∈ w, x = 0) :
    (normalizeDividesByZero w = true ∨
      calcTransitionProbDividesByZero (construct w).waitingTime = true) ∧
    (construct w).waitingTime.length = w.length := by
  have hsum : sumWaitingTime w = 0 := by
    rw [sumWaitingTime_eq_sum]
    exact List.sum_eq_zero hz
  refine ⟨Or.inl ?_, length_normalizeWaitingTime w⟩
  rw [normalizeDividesByZero, hsum]
  simp [hne]

/-- Witness for the amended C7 at the input `[0, 0]`. -/
theorem allzero_division_by_zero_witness :
    ([(0 : ℚ), 0] ≠ []) ∧
    ((normalizeDividesByZero [(0 : ℚ), 0] = true ∨
       calcTransitionProbDividesByZero
         (construct [(0 : ℚ), 0]).waitingTime = true) ∧
     (construct [(0 : ℚ), 0]).waitingTime.length = [(0 : ℚ), 0].length) :=
  ⟨by decide, allzero_division_by_zero [0, 0] (by decide) (by decide)⟩

/-- C10: construction is scale-invariant — scaling a non-empty positive-sum
input by a positive constant c with c * sum ≠ 1 yields the same stored
waiting-time and transition-probability sequences. -/
theorem scale_invariance (w : List ℚ) (c : ℚ) (hne : w ≠ [])
    (hpos : 0 < sumWaitingTime w) (hc : 0 < c)
    (hscale : c * sumWaitingTime w ≠ 1) :
    (construct (w.map (fun x => c * x))).waitingTime =
      (construct w).waitingTime ∧
    (construct (w.map (fun x => c * x))).transitionProb =
      (construct w).transitionProb := by
  have hc0 : c ≠ 0 := ne_of_gt hc
  have hsum : sumWaitingTime (w.map (fun x => c * x)) = c * sumWaitingTime w := by
    rw [sumWaitingTime_eq_sum, sumWaitingTime_eq_sum]
    simpa using List.sum_map_mul_left w id c
  have hscale' : sumWaitingTime (w.map (fun x => c * x)) ≠ 1 := by
    rw [hsum]
    exact hscale
  have key : normalizeWaitingTime (w.map (fun x => c * x)) =
      normalizeWaitingTime w := by
    rw [normalizeWaitingTime, if_pos hscale', List.map_map, hsum]
    have hfun : ((fun x => x / (c * sumWaitingTime w)) ∘ (fun x => c * x)) =
        (fun x => x / sumWaitingTime w) := by
      funext a
      show c * a / (c * sumWaitingTime w) = a / sumWaitingTime w
      rw [mul_div_mul_left _ _ hc0]
    rw [hfun, normalizeWaitingTime]
    by_cases h1 : sumWaitingTime w ≠ 1
    · rw [if_pos h1]
    · rw [if_neg h1]
      push_neg at h1
      rw [h1]
      simp
  constructor
  · show normalizeWaitingTime _ = normalizeWaitingTime _
    exact key
  · show calcTransitionProb _ = calcTransitionProb _
    rw [key]

/-- Witness for C10 at input `[1, 1, 2]` scaled by `c = 2`. -/
theorem scale_invariance_witness :
    (construct ([(1 : ℚ), 1, 2].map (fun x => 2 * x))).waitingTime =
      (construct [(1 : ℚ), 1, 2]).waitingTime ∧
    (construct ([(1 : ℚ), 1, 2].map (fun x => 2 * x))).transitionProb =
      (construct [(1 : ℚ), 1, 2]).transitionProb :=
  scale_invariance [1, 1, 2] 2 (by decide)
    (by rw [sumWaitingTime_A]; norm_num) (by norm_num)
    (by rw [sumWaitingTime_A]; norm_num)

end Denim
